import Mathlib

/-!
Verification of the combined-credits feed pipeline of `movie-feed`
(`src/lib/movie-feed/src/api/routes/person/combined_credits*` and the
credit model in `src/lib/tmdb/src/models/v3`).

Shallow embedding conventions:
* `chrono::NaiveDate` is represented by its day number from CE (an `Int`),
  bounded by the `chrono` year range `[-262144, 262143]` (the year field is
  packed into `i32 >> 13` bits).  `NaiveDate::checked_add_signed` /
  `checked_sub_signed` add or subtract the number of *whole days* of the
  `TimeDelta` and fail when the result leaves that range.
* `chrono::TimeDelta` is represented by its whole-second count (an `Int`);
  its whole-day count is the Rust truncating division by 86400.
* `Utc::now()` is made explicit: the classifier takes the sampled date as a
  parameter, and a pipeline run is parameterised by a clock `Nat → Int`
  giving the date sampled at the i-th per-credit classification call
  (the source function `ReleaseStatus::check` samples `Self::date_now()` inside
  each invocation).
-/

namespace MovieFeed

/-- `chrono::TimeDelta`, as its whole-second count. -/
abbrev TimeDelta := Int

/-- Days from CE of December 31 of year `y` in the proleptic Gregorian
calendar (floor divisions, matching the chrono day numbering where
0001-01-01 is day 1). -/
def daysToYearEnd (y : Int) : Int :=
  365 * y + y.fdiv 4 - y.fdiv 100 + y.fdiv 400

/-- Day number of `chrono::NaiveDate::MAX` (December 31 of year 262143). -/
def naiveDateMaxDays : Int := daysToYearEnd 262143

/-- Day number of `chrono::NaiveDate::MIN` (January 1 of year -262144). -/
def naiveDateMinDays : Int := daysToYearEnd (-262145) + 1

/-- Whole-day count of a `TimeDelta`: the Rust truncating `i64` division of
the second count by 86400 (`TimeDelta::num_days`). -/
def timeDeltaNumDays (t : TimeDelta) : Int := t.tdiv 86400

/-- `NaiveDate::checked_add_signed`: add the whole days of the delta,
`none` when the result leaves the representable date range. -/
def checkedAddSigned (d : Int) (t : TimeDelta) : Option Int :=
  let r := d + timeDeltaNumDays t
  if naiveDateMinDays ≤ r ∧ r ≤ naiveDateMaxDays then some r else none

/-- `NaiveDate::checked_sub_signed`: subtract the whole days of the delta,
`none` when the result leaves the representable date range. -/
def checkedSubSigned (d : Int) (t : TimeDelta) : Option Int :=
  let r := d - timeDeltaNumDays t
  if naiveDateMinDays ≤ r ∧ r ≤ naiveDateMaxDays then some r else none

/-- The `ReleaseStatus` filter enum of
`combined_credits/release_status.rs`. -/
inductive ReleaseStatus where
  | Unreleased (max_time_until_release : Option TimeDelta)
  | Released (max_age min_age : Option TimeDelta)
  | HasReleaseDate (max_time_until_release max_age : Option TimeDelta)
  | NoReleaseDate
  | All
  deriving Repr, DecidableEq

/-- `impl Default for ReleaseStatus`: `HasReleaseDate` with both bounds
unset. -/
def ReleaseStatus.default : ReleaseStatus := .HasReleaseDate none none

/-- `ReleaseStatus::check_max_time_until_release`: with a bound set, the
release date must be strictly before `now + bound`; overflow of the
addition fails the check. -/
def check_max_time_until_release (now release_date : Int)
    (max_time_until_release : Option TimeDelta) : Bool :=
  match max_time_until_release with
  | some mt =>
    match checkedAddSigned now mt with
    | none => false
    | some max_release_date => decide (release_date < max_release_date)
  | none => true

/-- `ReleaseStatus::check_max_age`: with a bound set, the release date must
be on or after `now - max_age`; overflow of the subtraction fails the
check. -/
def check_max_age (now release_date : Int) (max_age : Option TimeDelta) :
    Bool :=
  match max_age with
  | some ma =>
    match checkedSubSigned now ma with
    | none => false
    | some max_age_date => !(decide (release_date < max_age_date))
  | none => true

/-- `ReleaseStatus::check_min_age`: with a bound set, the release date must
be on or before `now - min_age`; overflow of the subtraction fails the
check. -/
def check_min_age (now release_date : Int) (min_age : Option TimeDelta) :
    Bool :=
  match min_age with
  | some mi =>
    match checkedSubSigned now mi with
    | none => false
    | some min_age_date => !(decide (min_age_date < release_date))
  | none => true

/-- `ReleaseStatus::check`, with the date sampled by `Self::date_now()`
made an explicit `now` parameter (the source reads the clock inside each
invocation; the per-run clock is modelled at the pipeline level). -/
def ReleaseStatus.check (rs : ReleaseStatus) (now : Int)
    (release_date : Option Int) : Bool :=
  match rs with
  | .Unreleased mtur =>
    match release_date with
    | none => true
    | some date => decide (now < date) && check_max_time_until_release now date mtur
  | .Released max_age min_age =>
    match release_date with
    | none => false
    | some date =>
      decide (date ≤ now) && check_max_age now date max_age
        && check_min_age now date min_age
  | .HasReleaseDate mtur max_age =>
    match release_date with
    | none => false
    | some date =>
      check_max_time_until_release now date mtur && check_max_age now date max_age
  | .NoReleaseDate => release_date.isNone
  | .All => true

/-- `Ord::cmp` on integers (`NaiveDate` ordering). -/
def intCmp (a b : Int) : Ordering :=
  if a < b then .lt else if a = b then .eq else .gt

/-- The `SortReleaseDates` query parameter of
`combined_credits/sort_order.rs` (`Descending` is the serde default). -/
inductive SortReleaseDates where
  | Descending
  | Ascending
  deriving Repr, DecidableEq

/-- `SortReleaseDates::sort_release_date`: comparator over optional release
dates.  Descending compares dated pairs as `b.cmp(a)` and orders `None`
before `Some`; Ascending compares dated pairs as `a.cmp(b)` and orders
`None` after `Some`. -/
def SortReleaseDates.sort_release_date :
    SortReleaseDates → Option Int → Option Int → Ordering
  | .Descending, none, none => .eq
  | .Descending, none, some _ => .lt
  | .Descending, some _, none => .gt
  | .Descending, some a, some b => intCmp b a
  | .Ascending, none, none => .eq
  | .Ascending, none, some _ => .gt
  | .Ascending, some _, none => .lt
  | .Ascending, some a, some b => intCmp a b

/-- The free function `sort_release_date_descending` of
`combined_credits.rs` (same matches as the `Descending` arm above). -/
def sort_release_date_descending (a b : Option Int) : Ordering :=
  match a, b with
  | none, none => .eq
  | none, some _ => .lt
  | some _, none => .gt
  | some a, some b => intCmp b a

/-- The non-strict key order induced by a comparator for a stable sort:
`a` may stay before `b` exactly when the comparator does not answer
`Greater` (this is the order `slice::sort_by` sorts by). -/
def SortReleaseDates.le (dir : SortReleaseDates) (a b : Option Int) : Bool :=
  match dir.sort_release_date a b with
  | .gt => false
  | _ => true

/-- Stable sort of optional release dates by the requested direction
(`sort_by` in Rust is a stable sort; `List.mergeSort` is the stable sort of
the embedding). -/
def sortOptDates (dir : SortReleaseDates) (l : List (Option Int)) :
    List (Option Int) :=
  l.mergeSort dir.le

/-- `MediaType` (movie or tv show). -/
inductive MediaType where
  | movie
  | tv
  deriving Repr, DecidableEq

/-- `CreditType` (cast or crew engagement). -/
inductive CreditType where
  | cast
  | crew
  deriving Repr, DecidableEq

/-- Genre of a credit, by its name (`Genre::name`). -/
abbrev Genre := String

/-- `tmdb::models::v3::cast::MovieCast`. -/
structure MovieCast where
  id : Nat
  title : String
  original_title : String
  character : Option String
  genres : List Genre
  release_date : Option Int
  overview : String
  original_language : String
  credit_id : Option String
  deriving Repr, DecidableEq

/-- `tmdb::models::v3::cast::TvCast`. -/
structure TvCast where
  id : Nat
  name : String
  original_name : String
  character : Option String
  genres : List Genre
  first_air_date : Option Int
  overview : String
  original_language : String
  credit_id : Option String
  deriving Repr, DecidableEq

/-- `tmdb::models::v3::crew::MovieCrew`. -/
structure MovieCrew where
  id : Nat
  title : String
  original_title : String
  department : String
  job : String
  genres : List Genre
  release_date : Option Int
  overview : String
  original_language : String
  credit_id : Option String
  deriving Repr, DecidableEq

/-- `tmdb::models::v3::crew::TvCrew`. -/
structure TvCrew where
  id : Nat
  name : String
  original_name : String
  department : String
  job : String
  genres : List Genre
  first_air_date : Option Int
  overview : String
  original_language : String
  credit_id : Option String
  deriving Repr, DecidableEq

/-- `tmdb::models::v3::cast::Cast`. -/
inductive Cast where
  | movie (c : MovieCast)
  | tv (c : TvCast)
  deriving Repr, DecidableEq

/-- `tmdb::models::v3::crew::Crew`. -/
inductive Crew where
  | movie (c : MovieCrew)
  | tv (c : TvCrew)
  deriving Repr, DecidableEq

/-- `tmdb::models::v3::credit::Credit`: tagged union of cast and crew
credits. -/
inductive Credit where
  | cast (c : Cast)
  | crew (c : Crew)
  deriving Repr, DecidableEq

/-- `IsCredit::id`, dispatched through the variants.  Modelled from the
spec: the `IsCredit` accessor impls on `Cast`/`Crew` are not in the source
tree (only the trait, the derive macro on `Credit`, and the four concrete
structs are); spec §4.1 fixes the dispatch (pure field projections). -/
def Credit.id : Credit → Nat
  | .cast (.movie c) => c.id
  | .cast (.tv c) => c.id
  | .crew (.movie c) => c.id
  | .crew (.tv c) => c.id

/-- `IsCredit::title`.  Modelled from the spec: display title for movies,
show name for tv credits (spec §4.1). -/
def Credit.title : Credit → String
  | .cast (.movie c) => c.title
  | .cast (.tv c) => c.name
  | .crew (.movie c) => c.title
  | .crew (.tv c) => c.name

/-- `IsCredit::release_date`.  Modelled from the spec: movies use the
release date, shows use the first-air date (spec §4.1). -/
def Credit.release_date : Credit → Option Int
  | .cast (.movie c) => c.release_date
  | .cast (.tv c) => c.first_air_date
  | .crew (.movie c) => c.release_date
  | .crew (.tv c) => c.first_air_date

/-- `IsCredit::media_type`.  Modelled from the spec: the media kind fixed
at construction (spec §3, §4.1). -/
def Credit.media_type : Credit → MediaType
  | .cast (.movie _) => .movie
  | .cast (.tv _) => .tv
  | .crew (.movie _) => .movie
  | .crew (.tv _) => .tv

/-- `IsCredit::credit_type`: the role kind of the variant. -/
def Credit.credit_type : Credit → CreditType
  | .cast _ => .cast
  | .crew _ => .crew

/-- Key order on credits: the requested direction applied to their release dates. -/
def creditLE (dir : SortReleaseDates) (a b : Credit) : Bool :=
  dir.le a.release_date b.release_date

/-- Stable sort of credits by release date in the requested direction
(`credits.sort_by(|a, b| sort_release_date(a.release_date(),
b.release_date()))`; `slice::sort_by` is stable). -/
def sortCredits (dir : SortReleaseDates) (l : List Credit) : List Credit :=
  l.mergeSort (creditLE dir)

/-- `itertools::merge_by`: at each step take the head of the first list
when the predicate answers true, else the head of the second; an exhausted
side yields the rest of the other. -/
def mergeBy (f : α → α → Bool) : List α → List α → List α
  | [], ys => ys
  | x :: xs, [] => x :: xs
  | x :: xs, y :: ys =>
    if f x y then x :: mergeBy f xs (y :: ys) else y :: mergeBy f (x :: xs) ys
termination_by xs ys => xs.length + ys.length

/-- The filter step of the pipeline: the i-th admission decision calls
`ReleaseStatus::check`, whose `date_now()` samples the clock at that
invocation (`clock i`). -/
def filterRun (rs : ReleaseStatus) (clock : Nat → Int) :
    Nat → List Credit → List Credit
  | _, [] => []
  | i, c :: cs =>
    if rs.check (clock i) c.release_date then c :: filterRun rs clock (i + 1) cs
    else filterRun rs clock (i + 1) cs

/-- The sequence of admission decisions of one pipeline run over the given
optional release dates, the i-th decision sampling the clock at that
invocation. -/
def runDecisions (rs : ReleaseStatus) (clock : Nat → Int) :
    Nat → List (Option Int) → List Bool
  | _, [] => []
  | i, d :: ds => rs.check (clock i) d :: runDecisions rs clock (i + 1) ds

/-- The credits retained by one pipeline run: merge cast before crew
(`merge_by(_, |_a, _b| true)`), filter by the release status, stable-sort
by release date, truncate to `size` (`take(items_size)`). -/
def pipelineCredits (cast crew : List Credit) (rs : ReleaseStatus)
    (clock : Nat → Int) (dir : SortReleaseDates) (size : Nat) : List Credit :=
  (sortCredits dir (filterRun rs clock 0 (mergeBy (fun _ _ => true) cast crew))).take size

/-- One value written to the hasher by `credit_guid` (`Hash::hash` calls
on the five fields, in order). -/
inductive HashAtom where
  | nat (n : Nat)
  | str (s : String)
  | optDate (d : Option Int)
  | media (m : MediaType)
  | ctype (c : CreditType)
  deriving Repr, DecidableEq

/-- One 64-bit combining step of the hasher model. -/
def hashCombine (h x : Nat) : Nat := (h * 1099511628211 + x) % 2 ^ 64

/-- Numeric encoding of a written value. -/
def HashAtom.val : HashAtom → Nat
  | .nat n => n
  | .str s => s.toList.foldl (fun a c => hashCombine a (c.toNat + 1)) 7
  | .optDate none => 0
  | .optDate (some d) => 2 * d.natAbs + (if d < 0 then 1 else 0) + 1
  | .media .movie => 0
  | .media .tv => 1
  | .ctype .cast => 0
  | .ctype .crew => 1

/-- `DefaultHasher` model: SipHash-1-3 with fixed zero keys is a
deterministic pure function of the written value stream; it is modelled by
a deterministic 64-bit fold over that stream (`finish` is the fold
result). -/
def hashFinish (l : List HashAtom) : Nat :=
  l.foldl (fun h a => hashCombine h a.val) 14695981039346656037

/-- An RSS `Guid`: a value string and the permalink flag. -/
structure Guid where
  value : String
  permalink : Bool
  deriving Repr, DecidableEq

/-- The exact sequence of values `credit_guid` feeds to the hasher:
id, title, release date, media type, credit type, in that order. -/
def guidStream (c : Credit) : List HashAtom :=
  [.nat c.id, .str c.title, .optDate c.release_date, .media c.media_type,
    .ctype c.credit_type]

/-- `credit_guid` of `combined_credits.rs`: hash the five fields, render
the 64-bit result as a decimal string, mark the guid non-permalink
(`permalink(false)`). -/
def credit_guid (c : Credit) : Guid :=
  { value := toString (hashFinish (guidStream c)), permalink := false }

/-- `DEFAULT_SIZE_USIZE` of `combined_credits/size.rs`. -/
def DEFAULT_SIZE_USIZE : Nat := 20

/-- `MAX_SIZE_USIZE` of `combined_credits/size.rs`. -/
def MAX_SIZE_USIZE : Nat := 50

/-- The two `Size` construction errors: `SizeError::ExceedsMaxSize` and the
wrapped `TryFromIntError` from the `NonZeroUsize` conversion of zero. -/
inductive SizeError where
  | ExceedsMaxSize
  | TryFromInt
  deriving Repr, DecidableEq

/-- `NonZeroUsize::try_from`: zero fails with the out-of-range integral
conversion error. -/
def nonZeroUsizeTryFrom (n : Nat) : Except SizeError Nat :=
  if n = 0 then .error .TryFromInt else .ok n

/-- `SizeInner::try_from(NonZeroUsize)`: values above `MAX_SIZE` fail with
`ExceedsMaxSize`, others wrap. -/
def sizeInnerTryFrom (n : Nat) : Except SizeError Nat :=
  if MAX_SIZE_USIZE < n then .error .ExceedsMaxSize else .ok n

/-- `Size::try_from(usize)`: the `NonZeroUsize` conversion followed by the
`SizeInner` bound check. -/
def sizeTryFrom (n : Nat) : Except SizeError Nat :=
  (nonZeroUsizeTryFrom n).bind sizeInnerTryFrom

/-- `Size::default()`: wraps `DEFAULT_SIZE` (20). -/
def sizeDefault : Nat := DEFAULT_SIZE_USIZE

/-- The derived Rust `Ord` on `Option<TimeDelta>` restricted to `<`:
`None` is less than every `Some`, and `Some` values compare by value. -/
def optionTimeDeltaLT : Option TimeDelta → Option TimeDelta → Bool
  | none, none => false
  | none, some _ => true
  | some _, none => false
  | some a, some b => decide (a < b)

/-- The one error `deserialize_release_status` can produce
(`ReleaseStatusError::MaxAgeSmaller`, "max_age must be larger than
min_age"). -/
inductive ReleaseStatusError where
  | MaxAgeSmaller
  deriving Repr, DecidableEq

/-- `deserialize_release_status` of `combined_credits/release_status.rs`,
parameterised by the outcome of the inner serde parse (`none` models any
parse failure — unknown variant name or unparsable duration): the parse
result is `unwrap_or_default()`ed, then a parsed `Released` is rejected
with `MaxAgeSmaller` when `max_age < min_age` under the derived
`Option` ordering. -/
def deserializeReleaseStatus (raw : Option ReleaseStatus) :
    Except ReleaseStatusError ReleaseStatus :=
  let release := raw.getD ReleaseStatus.default
  match release with
  | .Released max_age min_age =>
    if optionTimeDeltaLT max_age min_age then .error .MaxAgeSmaller
    else .ok release
  | other => .ok other

/-- A concrete movie-cast credit used as an evaluation input. -/
def movieCastA : MovieCast :=
  { id := 11, title := "A", original_title := "A", character := some "X"
  , genres := ["Action"], release_date := some 20000, overview := "first"
  , original_language := "en", credit_id := some "c1" }

/-- The same five identity fields as `movieCastA`, every other field
different. -/
def movieCastB : MovieCast :=
  { id := 11, title := "A", original_title := "A2", character := none
  , genres := ["Drama", "Crime"], release_date := some 20000
  , overview := "second", original_language := "fr", credit_id := none }

/-- A concrete movie-crew credit with the same release date as
`movieCastA`. -/
def movieCrewC : MovieCrew :=
  { id := 12, title := "C", original_title := "C", department := "Directing"
  , job := "Director", genres := [], release_date := some 20000
  , overview := "", original_language := "en", credit_id := none }

/-! Helper lemmas. -/

theorem desc_le_some_some (x y : Int) :
    SortReleaseDates.Descending.le (some x) (some y) = decide (y ≤ x) := by
  simp only [SortReleaseDates.le, SortReleaseDates.sort_release_date, intCmp]
  split_ifs with h1 h2 <;> simp <;> omega

theorem asc_le_some_some (x y : Int) :
    SortReleaseDates.Ascending.le (some x) (some y) = decide (x ≤ y) := by
  simp only [SortReleaseDates.le, SortReleaseDates.sort_release_date, intCmp]
  split_ifs with h1 h2 <;> simp <;> omega

theorem sortDirLE_char (dir : SortReleaseDates) (a b : Option Int) :
    dir.le a b = match dir, a, b with
      | _, none, none => true
      | .Descending, none, some _ => true
      | .Descending, some _, none => false
      | .Descending, some x, some y => decide (y ≤ x)
      | .Ascending, none, some _ => false
      | .Ascending, some _, none => true
      | .Ascending, some x, some y => decide (x ≤ y) := by
  rcases dir <;> rcases a with _ | x <;> rcases b with _ | y <;>
    first
      | rfl
      | exact desc_le_some_some x y
      | exact asc_le_some_some x y

theorem sortDirLE_total (dir : SortReleaseDates) (a b : Option Int) :
    dir.le a b || dir.le b a := by
  rw [Bool.or_eq_true, sortDirLE_char, sortDirLE_char]
  rcases dir <;> rcases a with _ | x <;> rcases b with _ | y <;> simp <;> omega

theorem sortDirLE_trans (dir : SortReleaseDates) (a b c : Option Int) :
    dir.le a b → dir.le b c → dir.le a c := by
  rw [sortDirLE_char, sortDirLE_char, sortDirLE_char]
  rcases dir <;> rcases a with _ | x <;> rcases b with _ | y <;>
    rcases c with _ | z <;> simp <;> omega

theorem sortDirLE_refl (dir : SortReleaseDates) (a : Option Int) :
    dir.le a a = true := by
  rw [sortDirLE_char]
  rcases dir <;> rcases a with _ | x <;> simp

theorem creditLE_total (dir : SortReleaseDates) (a b : Credit) :
    creditLE dir a b || creditLE dir b a :=
  sortDirLE_total dir a.release_date b.release_date

theorem creditLE_trans (dir : SortReleaseDates) (a b c : Credit) :
    creditLE dir a b → creditLE dir b c → creditLE dir a c :=
  sortDirLE_trans dir a.release_date b.release_date c.release_date

theorem creditLE_of_eq_key (dir : SortReleaseDates) (a b : Credit)
    (h : a.release_date = b.release_date) : creditLE dir a b = true := by
  unfold creditLE
  rw [h]
  exact sortDirLE_refl dir b.release_date

theorem mergeBy_true {α : Type} :
    ∀ (xs ys : List α), mergeBy (fun _ _ => true) xs ys = xs ++ ys
  | [], ys => by simp [mergeBy]
  | _ :: _, [] => by simp [mergeBy]
  | x :: xs, y :: ys => by
    simp only [mergeBy, if_pos rfl, List.cons_append]
    exact congrArg (x :: ·) (mergeBy_true xs (y :: ys))
termination_by xs ys => xs.length + ys.length

theorem runDecisions_const (rs : ReleaseStatus) (now : Int) :
    ∀ (i : Nat) (ds : List (Option Int)),
      runDecisions rs (fun _ => now) i ds = ds.map (rs.check now)
  | _, [] => rfl
  | i, d :: ds => by
    simp only [runDecisions, List.map]
    exact congrArg _ (runDecisions_const rs now (i + 1) ds)

theorem check_max_age_iff (now rd : Int) (ma : Option TimeDelta) :
    check_max_age now rd ma = true ↔
      ∀ a, ma = some a →
        ∃ bound, checkedSubSigned now a = some bound ∧ bound ≤ rd := by
  cases ma with
  | none => simp [check_max_age]
  | some a =>
    cases h : checkedSubSigned now a with
    | none => simp [check_max_age, h]
    | some bound => simp [check_max_age, h]

theorem check_min_age_iff (now rd : Int) (mi : Option TimeDelta) :
    check_min_age now rd mi = true ↔
      ∀ a, mi = some a →
        ∃ bound, checkedSubSigned now a = some bound ∧ rd ≤ bound := by
  cases mi with
  | none => simp [check_min_age]
  | some a =>
    cases h : checkedSubSigned now a with
    | none => simp [check_min_age, h]
    | some bound => simp [check_min_age, h]

theorem check_mtur_iff (now rd : Int) (m : Option TimeDelta) :
    check_max_time_until_release now rd m = true ↔
      ∀ a, m = some a →
        ∃ bound, checkedAddSigned now a = some bound ∧ rd < bound := by
  cases m with
  | none => simp [check_max_time_until_release]
  | some a =>
    cases h : checkedAddSigned now a with
    | none => simp [check_max_time_until_release, h]
    | some bound => simp [check_max_time_until_release, h]

/-! Claim theorems. -/

/-- C4: `Released{max_age, min_age}` admits an optional release date `d`
iff `d` is present, on or before `now`, on or after `now - max_age` when
`max_age` is set, and on or before `now - min_age` when `min_age` is set;
a subtraction that overflows the date range rejects the credit, an absent
date is never admitted, and `Released{None, None}` admits exactly the
present dates on or before `now`. -/
theorem released_check_characterisation (now : Int) (d : Option Int)
    (max_age min_age : Option TimeDelta) :
    ((ReleaseStatus.Released max_age min_age).check now d = true ↔
      ∃ dd, d = some dd ∧ dd ≤ now
        ∧ (∀ ma, max_age = some ma →
            ∃ bound, checkedSubSigned now ma = some bound ∧ bound ≤ dd)
        ∧ (∀ mi, min_age = some mi →
            ∃ bound, checkedSubSigned now mi = some bound ∧ dd ≤ bound))
    ∧ ((ReleaseStatus.Released none none).check now d = true ↔
        ∃ dd, d = some dd ∧ dd ≤ now)
    ∧ (ReleaseStatus.Released max_age min_age).check now none = false := by
  refine ⟨?_, ?_, rfl⟩ <;> cases d with
  | none => simp [ReleaseStatus.check]
  | some dd =>
    simp [ReleaseStatus.check, check_max_age_iff, check_min_age_iff,
      and_assoc]

/-- C5: `Unreleased{max_time_until_release}` admits an optional release
date `d` iff `d` is absent, or `d` is strictly after `now` and, when the
bound is set, strictly before `now + max_time_until_release`; an addition
that overflows the date range rejects every present date. -/
theorem unreleased_check_characterisation (now : Int) (d : Option Int)
    (mtur : Option TimeDelta) :
    ((ReleaseStatus.Unreleased mtur).check now d = true ↔
      d = none ∨ ∃ dd, d = some dd ∧ now < dd
        ∧ (∀ mt, mtur = some mt →
            ∃ bound, checkedAddSigned now mt = some bound ∧ dd < bound))
    ∧ (ReleaseStatus.Unreleased mtur).check now none = true := by
  refine ⟨?_, rfl⟩
  cases d with
  | none => simp [ReleaseStatus.check]
  | some dd => simp [ReleaseStatus.check, check_mtur_iff, and_assoc]

/-- C6: constructing a `Size` from a raw integer fails with the
out-of-range (`TryFromInt`) error exactly for zero, fails with the
distinct `ExceedsMaxSize` error exactly above `MAX_SIZE` (50), wraps every
value in `1..=50`, default construction yields 20, and
`DEFAULT_SIZE <= MAX_SIZE` holds. -/
theorem size_try_from_contract (n : Nat) :
    (sizeTryFrom n = .error .TryFromInt ↔ n = 0)
    ∧ (sizeTryFrom n = .error .ExceedsMaxSize ↔ MAX_SIZE_USIZE < n)
    ∧ (sizeTryFrom n = .ok n ↔ 1 ≤ n ∧ n ≤ MAX_SIZE_USIZE)
    ∧ sizeDefault = DEFAULT_SIZE_USIZE
    ∧ DEFAULT_SIZE_USIZE ≤ MAX_SIZE_USIZE
    ∧ sizeDefault = 20 ∧ MAX_SIZE_USIZE = 50 := by
  have e : sizeTryFrom n = if n = 0 then .error .TryFromInt
      else if 50 < n then .error .ExceedsMaxSize else .ok n := by
    by_cases h0 : n = 0
    · rw [if_pos h0]
      subst h0
      rfl
    · rw [if_neg h0]
      have e1 : sizeTryFrom n = sizeInnerTryFrom n := by
        unfold sizeTryFrom nonZeroUsizeTryFrom
        rw [if_neg h0]
        rfl
      rw [e1]
      unfold sizeInnerTryFrom MAX_SIZE_USIZE
      rfl
  rw [e]
  split_ifs with h0 h1 <;>
    simp_all [MAX_SIZE_USIZE, DEFAULT_SIZE_USIZE, sizeDefault] <;> omega

/-- C3 (code evaluated at the failing input): the validator rejects
`Released{max_age: None, min_age: Some(5 minutes)}` with `MaxAgeSmaller`
because `None < Some(_)` under the derived `Option` ordering, although
only the both-bounds-present comparison is documented to fail; both-present
inputs behave as documented. -/
theorem released_min_age_only_rejected :
    deserializeReleaseStatus (some (.Released none (some 300)))
       = .error .MaxAgeSmaller
    ∧ optionTimeDeltaLT none (some 300) = true
    ∧ deserializeReleaseStatus (some (.Released (some 3600) (some 18000)))
       = .error .MaxAgeSmaller
    ∧ deserializeReleaseStatus (some (.Released (some 18000) (some 3600)))
       = .ok (.Released (some 18000) (some 3600)) :=
  ⟨rfl, rfl, rfl, rfl⟩

/-- C10: a failed inner parse of the release-status parameters is silently
replaced by the default `HasReleaseDate` filter (no error is reported),
and the only error the deserializer can return is `MaxAgeSmaller`,
produced only for an input that successfully parsed as `Released`. -/
theorem release_status_deserialise_fallback (raw : Option ReleaseStatus) :
    (raw = none →
      deserializeReleaseStatus raw = .ok (.HasReleaseDate none none))
    ∧ (∀ e, deserializeReleaseStatus raw = .error e →
        e = .MaxAgeSmaller ∧ ∃ ma mi, raw = some (.Released ma mi)) := by
  constructor
  · rintro rfl
    rfl
  · intro e he
    cases raw with
    | none => simp [deserializeReleaseStatus, ReleaseStatus.default] at he
    | some rs =>
      cases rs with
      | Released ma mi =>
        by_cases h : optionTimeDeltaLT ma mi = true
        · exact ⟨by cases e; rfl, ma, mi, rfl⟩
        · simp [deserializeReleaseStatus, h] at he
      | Unreleased m => simp [deserializeReleaseStatus] at he
      | HasReleaseDate m a => simp [deserializeReleaseStatus] at he
      | NoReleaseDate => simp [deserializeReleaseStatus] at he
      | All => simp [deserializeReleaseStatus] at he

/-- C10 witness: a failed parse yields the default filter, not an error. -/
theorem release_status_deserialise_fallback_witness :
    deserializeReleaseStatus none = .ok (.HasReleaseDate none none) :=
  (release_status_deserialise_fallback none).1 rfl

/-- C7: the guid is a function of exactly the five fields (id, title,
release date, media kind, role kind): any two credits agreeing on those
five fields produce identical guids, whatever their other fields hold, and
the guid is marked non-permalink. -/
theorem credit_guid_five_fields (c1 c2 : Credit)
    (hid : c1.id = c2.id) (ht : c1.title = c2.title)
    (hr : c1.release_date = c2.release_date)
    (hm : c1.media_type = c2.media_type)
    (hc : c1.credit_type = c2.credit_type) :
    credit_guid c1 = credit_guid c2
    ∧ (credit_guid c1).permalink = false := by
  constructor
  · unfold credit_guid guidStream
    rw [hid, ht, hr, hm, hc]
  · rfl

/-- C7 witness: two credits equal on the five identity fields but differing
in overview, genres, character, original language and credit id share one
guid. -/
theorem credit_guid_five_fields_witness :
    credit_guid (.cast (.movie movieCastA))
      = credit_guid (.cast (.movie movieCastB))
    ∧ (credit_guid (.cast (.movie movieCastA))).permalink = false
    ∧ movieCastA.overview ≠ movieCastB.overview
    ∧ movieCastA.genres ≠ movieCastB.genres :=
  ⟨(credit_guid_five_fields (.cast (.movie movieCastA))
      (.cast (.movie movieCastB)) rfl rfl rfl rfl rfl).1,
    rfl, by decide, by decide⟩

theorem desc_le_isSome {a b : Option Int}
    (h : SortReleaseDates.Descending.le a b = true) :
    a.isSome = true → b.isSome = true := by
  rw [sortDirLE_char] at h
  rcases a with _ | x <;> rcases b with _ | y <;> simp_all

theorem asc_le_isSome {a b : Option Int}
    (h : SortReleaseDates.Ascending.le a b = true) :
    b.isSome = true → a.isSome = true := by
  rw [sortDirLE_char] at h
  rcases a with _ | x <;> rcases b with _ | y <;> simp_all

/-- C1 counterexample: the `Descending` comparator orders an undated item
strictly BEFORE a dated one (`Less`, not `Greater`), in both the
`sort_order.rs` comparator and the `combined_credits.rs` free function,
so a descending sort leaves the undated item ahead of the dated one. -/
theorem descending_places_undated_first :
    SortReleaseDates.Descending.sort_release_date none (some 0) = .lt
    ∧ SortReleaseDates.Descending.sort_release_date none (some 0) ≠ .gt
    ∧ sort_release_date_descending none (some 0) = .lt
    ∧ SortReleaseDates.Descending.sort_release_date (some 0) none = .gt
    ∧ sortOptDates .Descending [none, some 0] = [none, some 0] := by
  refine ⟨rfl, by decide, rfl, rfl, ?_⟩
  exact List.mergeSort_of_sorted
    (List.pairwise_cons.mpr ⟨fun b hb => by
      rcases List.mem_singleton.mp hb with rfl
      rfl,
      List.pairwise_singleton _ _⟩)

/-- C1 corrected: the undated position depends on the direction — in
`Ascending` every undated item is placed after all dated items, while in
`Descending` the comparator places every undated item before all dated
items, so a descending sort groups undated items first and an ascending
sort groups them last. -/
theorem undated_position_by_direction (d : Int) (l : List (Option Int)) :
    SortReleaseDates.Ascending.sort_release_date none (some d) = .gt
    ∧ SortReleaseDates.Ascending.sort_release_date (some d) none = .lt
    ∧ SortReleaseDates.Descending.sort_release_date none (some d) = .lt
    ∧ SortReleaseDates.Descending.sort_release_date (some d) none = .gt
    ∧ (sortOptDates .Descending l).Pairwise
        (fun a b => a.isSome = true → b.isSome = true)
    ∧ (sortOptDates .Ascending l).Pairwise
        (fun a b => b.isSome = true → a.isSome = true) := by
  refine ⟨rfl, rfl, rfl, rfl, ?_, ?_⟩
  · exact (List.sorted_mergeSort (fun a b c => sortDirLE_trans _ a b c)
      (fun a b => sortDirLE_total _ a b) l).imp (fun h => desc_le_isSome h)
  · exact (List.sorted_mergeSort (fun a b c => sortDirLE_trans _ a b c)
      (fun a b => sortDirLE_total _ a b) l).imp (fun h => asc_le_isSome h)

/-- C2 counterexample: the classifier re-reads the clock inside every
`check` call, so a run whose clock advances by one day between two credits
with the same release date classifies them differently — no single `now`
value reproduces all decisions of that run. -/
theorem per_item_clock_not_single_snapshot :
    runDecisions (.Released none none) (fun i => (i : Int)) 0
        [some 1, some 1] = [false, true]
    ∧ ¬ ∃ now : Int,
        runDecisions (.Released none none) (fun i => (i : Int)) 0
            [some 1, some 1]
          = [(ReleaseStatus.Released none none).check now (some 1),
             (ReleaseStatus.Released none none).check now (some 1)] := by
  refine ⟨by decide, ?_⟩
  rintro ⟨now, h⟩
  rw [show runDecisions (.Released none none) (fun i => (i : Int)) 0
      [some 1, some 1] = [false, true] from by decide] at h
  injection h with h1 h2
  injection h2 with h2 _
  exact absurd (h1.trans h2.symm) (by decide)

/-- C2 corrected: each admission decision samples the current date at its
own `check` invocation; whenever all samples taken during one run
coincide, the decisions of the run equal those computed against that single
shared snapshot. -/
theorem constant_clock_single_snapshot (rs : ReleaseStatus) (now : Int)
    (ds : List (Option Int)) :
    runDecisions rs (fun _ => now) 0 ds = ds.map (rs.check now) :=
  runDecisions_const rs now 0 ds

/-- C8: the merge step of the pipeline is deterministic — `merge_by` with an
always-true predicate yields every cast credit in source order followed by
every crew credit in source order — and the sort is stable: two retained
credits with equal release-date keys keep their merge order in the sorted
output, in either direction. -/
theorem merge_and_sort_stability (cast crew : List Credit)
    (rs : ReleaseStatus) (clock : Nat → Int) (dir : SortReleaseDates)
    (a b : Credit) :
    mergeBy (fun _ _ => true) cast crew = cast ++ crew
    ∧ (a.release_date = b.release_date →
        List.Sublist [a, b]
          (filterRun rs clock 0 (mergeBy (fun _ _ => true) cast crew)) →
        List.Sublist [a, b] (sortCredits dir
          (filterRun rs clock 0 (mergeBy (fun _ _ => true) cast crew)))) := by
  refine ⟨mergeBy_true cast crew, ?_⟩
  intro hk hsub
  exact List.pair_sublist_mergeSort
    (fun x y z => creditLE_trans dir x y z)
    (fun x y => creditLE_total dir x y)
    (creditLE_of_eq_key dir a b hk) hsub

/-- C8 witness: a cast and a crew credit with equal release dates keep
their merge order (cast first) through filter and descending sort. -/
theorem merge_and_sort_stability_witness :
    List.Sublist [Credit.cast (.movie movieCastA), Credit.crew (.movie movieCrewC)]
      (sortCredits .Descending (filterRun .All (fun _ => 0) 0
        (mergeBy (fun _ _ => true) [Credit.cast (.movie movieCastA)]
          [Credit.crew (.movie movieCrewC)]))) := by
  have h := merge_and_sort_stability [Credit.cast (.movie movieCastA)]
    [Credit.crew (.movie movieCrewC)] .All (fun _ => 0) .Descending
    (Credit.cast (.movie movieCastA)) (Credit.crew (.movie movieCrewC))
  refine h.2 rfl ?_
  rw [h.1]
  exact (show filterRun .All (fun _ => 0) 0
      ([Credit.cast (.movie movieCastA)] ++ [Credit.crew (.movie movieCrewC)])
      = [Credit.cast (.movie movieCastA), Credit.crew (.movie movieCrewC)]
    from rfl) ▸ List.Sublist.refl _

/-- C9: the pipeline output is the `size`-prefix of the sorted eligible
credits: its length is exactly `min size filtered_count`, it is an initial
segment of the sorted eligible sequence, and that sequence is sorted by
the requested direction — so the output is the `size` highest-ranked
eligible credits. -/
theorem pipeline_truncation_bound (cast crew : List Credit)
    (rs : ReleaseStatus) (clock : Nat → Int) (dir : SortReleaseDates)
    (size : Nat) :
    (pipelineCredits cast crew rs clock dir size).length
      = min size
        (filterRun rs clock 0 (mergeBy (fun _ _ => true) cast crew)).length
    ∧ (∃ rest, pipelineCredits cast crew rs clock dir size ++ rest
        = sortCredits dir
          (filterRun rs clock 0 (mergeBy (fun _ _ => true) cast crew)))
    ∧ (sortCredits dir
        (filterRun rs clock 0 (mergeBy (fun _ _ => true) cast crew))).Pairwise
          (fun x y => creditLE dir x y = true) := by
  refine ⟨?_, ?_, ?_⟩
  · simp [pipelineCredits, sortCredits, List.length_take]
  · exact ⟨(sortCredits dir (filterRun rs clock 0
      (mergeBy (fun _ _ => true) cast crew))).drop size,
      List.take_append_drop ..⟩
  · exact List.sorted_mergeSort (fun x y z => creditLE_trans dir x y z)
      (fun x y => creditLE_total dir x y) _

end MovieFeed
